import Mathlib

/-!
# Verification of the OpenManus agent execution core

Shallow embedding of the agent execution core of this repository:
the agent state machine and scoped state transition (`app/agent/base.py`,
`BaseAgent.state_context`), the bounded step loop (`BaseAgent.run`),
the stuck detector (`BaseAgent.is_stuck`), the observed message log
(`app/schema.py`, `Memory`) and the tool dispatcher
(`app/tool/base.py`, `ToolCollection.execute`).

Python conventions used in the embedding:
* fallible code is modelled with `Except String`, the `String` being the
  message of the raised exception;
* Python truthiness on optional strings (`if not x`) is modelled by
  explicit helper functions;
* mutation of `self` is modelled by explicit state passing: each operation
  takes the state and returns the updated state.
-/

/-- Embedding of the `AgentState` enum of `app/schema.py`. -/
inductive AgentState where
  | IDLE
  | RUNNING
  | FINISHED
  | ERROR
deriving DecidableEq, Repr

/-- The rendering of an `AgentState` member used in f-strings
(`app/schema.py` declares `class AgentState(str, Enum)` whose values are the
state names). -/
def agentStateStr : AgentState → String
  | .IDLE => "IDLE"
  | .RUNNING => "RUNNING"
  | .FINISHED => "FINISHED"
  | .ERROR => "ERROR"

/-- The `role` literal of a `Message` (`app/schema.py`, `Message.role`). -/
inductive Role where
  | system
  | user
  | assistant
  | tool
deriving DecidableEq, Repr

/-- Embedding of `Function` from `app/schema.py`. -/
structure FunctionSig where
  name : String
  arguments : String
deriving DecidableEq, Repr

/-- Embedding of `ToolCall` from `app/schema.py`. -/
structure ToolCall where
  id : String
  type : String := "function"
  function : FunctionSig
deriving DecidableEq, Repr

/-- Embedding of `Message` from `app/schema.py`: a chat message.  `content` is
`Optional[str]`, modelled by `Option String`. -/
structure Message where
  role : Role
  content : Option String := none
  tool_calls : Option (List ToolCall) := none
  name : Option String := none
  tool_call_id : Option String := none
deriving DecidableEq, Repr

/-- Constructor `Message.user_message` (`app/schema.py`). -/
def Message.user_message (content : String) : Message :=
  { role := .user, content := some content }

/-- Constructor `Message.system_message` (`app/schema.py`). -/
def Message.system_message (content : String) : Message :=
  { role := .system, content := some content }

/-- Constructor `Message.assistant_message` (`app/schema.py`); its
`content` parameter is optional with default `None`. -/
def Message.assistant_message (content : Option String := none) : Message :=
  { role := .assistant, content := content }

/-- Constructor `Message.tool_message` (`app/schema.py`). -/
def Message.tool_message (content : String) (name : Option String)
    (tool_call_id : Option String) : Message :=
  { role := .tool, content := some content, name := name,
    tool_call_id := tool_call_id }

/-- Python truthiness of an `Optional[str]`: `None` and the empty string
are falsy, every other string is truthy. -/
def optStrTruthy : Option String → Bool
  | none => false
  | some s => s ≠ ""

/-- Python `f"{x}"` rendering of an `Optional[str]`: `None` prints as
`"None"`. -/
def pyFormatOpt : Option String → String
  | none => "None"
  | some s => s

/-- An observer callback registered on a `Memory`
(`app/schema.py`, `Memory._observers`).  The observer is awaited and may
raise; `Except.error` carries the message of the raised exception. -/
def Observer := Message → Except String Unit

/-- Embedding of `Memory` from `app/schema.py`: the ordered message log, its registered
observers and the capacity bound. -/
structure Memory where
  messages : List Message
  observers : List Observer
  max_messages : Nat

/-- Constructor `Memory.__init__` (`app/schema.py`): empty log, no observers,
capacity hard-coded to 100. -/
def Memory.init : Memory :=
  { messages := [], observers := [], max_messages := 100 }

/-- Because `app/schema.py` never imports `logger`, every `logger.error(...)`
call in `Memory.add_message` raises this `NameError` instead of logging. -/
def loggerNameError : String := "NameError: name 'logger' is not defined"

/-- Python slice `lst[-n:]`.  For `n = 0` the slice is `lst[0:]`, i.e. the
whole list; otherwise it is the last `n` elements (all of them when
`n ≥ len(lst)`). -/
def pySliceLastN (l : List Message) (n : Nat) : List Message :=
  if n = 0 then l else l.drop (l.length - n)

/-- Result of one call to `Memory.add_message`: the exception that
escaped the call (if any), the memory as mutated by the call (Python
mutations persist even when the call raises), and — as ghost
instrumentation for stating notification properties — how many observers
were actually invoked. -/
structure AddOutcome where
  fault : Option String
  memory : Memory
  notified : Nat

/-- The observer loop of `Memory.add_message` (`app/schema.py`): each
observer is awaited inside `try/except`; when an observer raises, the
handler calls `logger.error`, which itself raises `NameError` (the module
never imports `logger`), aborting the loop.  Returns how many observers were
invoked and the exception that escaped the loop, if any. -/
def notifyLoop : List Observer → Message → Nat × Option String
  | [], _ => (0, none)
  | o :: rest, m =>
    match o m with
    | Except.ok _ =>
      let (n, f) := notifyLoop rest m
      (n + 1, f)
    | Except.error _ => (1, some loggerNameError)

/-- Embedding of `Memory.add_message` (`app/schema.py`): append the message, notify all
observers, then trim the log to `max_messages` from the head.  When the
observer loop raises, the outer `except` handler's own `logger.error` call
raises `NameError` again, so the exception escapes and the trim is
skipped; the appended message stays in the (mutated) list. -/
def Memory.add_message (mem : Memory) (m : Message) : AddOutcome :=
  let msgs1 := mem.messages ++ [m]
  let (n, fault) := notifyLoop mem.observers m
  match fault with
  | some e =>
    { fault := some e, memory := { mem with messages := msgs1 }, notified := n }
  | none =>
    let msgs2 :=
      if msgs1.length > mem.max_messages then pySliceLastN msgs1 mem.max_messages
      else msgs1
    { fault := none, memory := { mem with messages := msgs2 }, notified := n }

/-- Repeated `add_message` calls (as in `Memory.add_messages`), keeping the
mutated memory of each call. -/
def Memory.addAll (mem : Memory) (msgs : List Message) : Memory :=
  msgs.foldl (fun acc m => (acc.add_message m).memory) mem

/-- Embedding of `Memory.get_recent_messages` (`app/schema.py`): `self.messages[-n:]`. -/
def Memory.get_recent_messages (mem : Memory) (n : Nat) : List Message :=
  pySliceLastN mem.messages n

/-! ## Tool dispatcher (`app/tool/base.py`) -/

/-- Embedding of `ToolResult` from `app/tool/base.py`: the uniform result envelope.
`output : Any` is modelled as an optional string (its rendering). -/
structure ToolResult where
  output : Option String := none
  error : Option String := none
  system : Option String := none
deriving DecidableEq, Repr

/-- The `tool_input` dict passed to `ToolCollection.execute`. -/
def ToolInput := List (String × String)

/-- A registered tool: its unique name and its executable capability
(`BaseTool.execute`).  The capability may raise (`Except.error` carries the
exception message); on success the `String` is the `str(...)` rendering of
whatever the tool returned.  Tool internals are external collaborators and
are not modelled further. -/
structure Tool where
  name : String
  exec : ToolInput → Except String String

/-- Embedding of `ToolCollection` from `app/tool/base.py`. -/
structure ToolCollection where
  tools : List Tool

/-- Embedding of `ToolCollection.get_tool`: `self.tool_map.get(name)`.  The dict
comprehension in `__init__` lets a later tool with the same name shadow an
earlier one, so lookup finds the last registration. -/
def ToolCollection.get_tool (tc : ToolCollection) (name : String) : Option Tool :=
  tc.tools.reverse.find? (fun t => t.name == name)

/-- A Python value returned by `ToolCollection.execute`: either a plain
string or a `ToolResult` object.  (The method is dynamically typed; this
sum records which kind of value each `return` statement produces.) -/
inductive PyValue where
  | str (s : String)
  | res (r : ToolResult)
deriving DecidableEq, Repr

/-- Embedding of `ToolCollection.execute` (`app/tool/base.py`): name lookup plus the
uniform `try/except` wrapper around the tool call.  Every `return`
statement of the source returns a plain string, and the method itself
never raises (the only fallible call is inside the `try`). -/
def ToolCollection.execute (tc : ToolCollection) (name : Option String)
    (tool_input : ToolInput) : PyValue :=
  if ¬ optStrTruthy name then PyValue.str "Error: Tool name is required"
  else
    let n := pyFormatOpt name
    match tc.get_tool n with
    | none => PyValue.str ("Error: Tool '" ++ n ++ "' not found")
    | some tool =>
      match tool.exec tool_input with
      | Except.ok r => PyValue.str r
      | Except.error e => PyValue.str ("Error: " ++ e)

/-- The result envelope the specification describes for dispatcher
failures: a `ToolResult` whose `error` field is populated and whose
`output` is empty.  Used to compare the code's actual return value with
the spec's words. -/
def isErrorEnvelope : PyValue → Bool
  | PyValue.res r => r.error ≠ none && r.output = none
  | PyValue.str _ => false

/-! ## Agent state and loop (`app/agent/base.py`) -/

/-- The fields of `BaseAgent` that the execution core reads and writes
(`app/agent/base.py`).  The llm dependency, name and description play no
role in the loop and are omitted. -/
structure AgentSt where
  state : AgentState
  memory : Memory
  current_step : Nat
  max_steps : Nat
  next_step_prompt : Option String
  duplicate_threshold : Nat

/-- A `BaseAgent` with the field defaults of `app/agent/base.py`:
IDLE, fresh memory, step counter 0, `max_steps = 10`,
`duplicate_threshold = 2`. -/
def AgentSt.init : AgentSt :=
  { state := .IDLE, memory := Memory.init, current_step := 0,
    max_steps := 10, next_step_prompt := none, duplicate_threshold := 2 }

/-- Embedding of `BaseAgent.is_stuck` (`app/agent/base.py`): duplicate-content
detection over the message log. -/
def is_stuck (a : AgentSt) : Bool :=
  if a.memory.messages.length < 2 then false
  else
    match a.memory.messages.getLast? with
    | none => false
    | some last_message =>
      if ¬ optStrTruthy last_message.content then false
      else
        let duplicate_count :=
          (a.memory.messages.dropLast.reverse.filter
            (fun msg => decide (msg.role = Role.assistant
              ∧ msg.content = last_message.content))).length
        decide (duplicate_count ≥ a.duplicate_threshold)

/-- The anti-repetition directive of `BaseAgent.handle_stuck_state`
(the source's backslash line continuation keeps the indentation spaces in
the literal). -/
def stuckPrompt : String :=
  "        Observed duplicate responses. Consider new strategies and avoid repeating ineffective paths already attempted."

/-- Embedding of `BaseAgent.handle_stuck_state` (`app/agent/base.py`): prepend the
anti-repetition directive to `next_step_prompt` (an f-string, so a `None`
prompt renders as the text `"None"`). -/
def handle_stuck_state (s : AgentSt) : AgentSt :=
  let p := some (stuckPrompt ++ "\n" ++ pyFormatOpt s.next_step_prompt)
  { s with next_step_prompt := p }

/-- Embedding of `BaseAgent.state_context` (`app/agent/base.py`).  The body runs with
the state replaced by `new_state`; if it raises, the `except` branch sets
the state to ERROR and re-raises; the `finally` branch then reverts the
state to the one saved on entry.  The body's fault value carries the
agent state at the moment of the fault (Python mutations persist).
Returns the body's outcome, the agent state after the scope exits, and
— ghost, third component — the state value assigned by the `except`
branch when the body faulted.  The `isinstance` validity check of the
source is enforced by the `AgentState` type itself. -/
def state_context {α : Type} (new_state : AgentState) (agent : AgentSt)
    (body : AgentSt → Except (String × AgentSt) (α × AgentSt)) :
    Except String α × AgentSt × Option AgentState :=
  let previous_state := agent.state
  match body { agent with state := new_state } with
  | Except.ok (a, s2) =>
    (Except.ok a, { s2 with state := previous_state }, none)
  | Except.error (e, s2) =>
    let sErr := { s2 with state := AgentState.ERROR }
    (Except.error e, { sErr with state := previous_state }, some sErr.state)

/-- A subclass-supplied `step` implementation: one unit of agent work.
It may mutate the whole agent (`self`) and may raise; the fault value
carries the agent state at the moment of the fault. -/
def StepFn := AgentSt → Except String String × AgentSt

/-- Ghost tag recording why the `while` loop of `BaseAgent.run` stopped:
the `current_step < max_steps` conjunct failed, the
`state != FINISHED` conjunct failed, the stuck-retry `break`, the
step-fault `break`, or (never reached with the fuel `run` supplies for
the step functions considered here) fuel exhaustion. -/
inductive ExitReason where
  | maxSteps
  | finished
  | stuckBreak
  | faultBreak
  | fuelOut
deriving DecidableEq, Repr

/-- Output of the `while` loop of `BaseAgent.run`: the agent after the
loop, the accumulated results, and ghost instrumentation — how many loop
iterations ran, why the loop stopped, and how many iterations the stuck
detector flagged. -/
structure LoopOut where
  s : AgentSt
  results : List String
  iters : Nat
  reason : ExitReason
  stucks : Nat

/-- The `while` loop of `BaseAgent.run` (`app/agent/base.py`, lines
124-149).  Arguments: remaining fuel (structural recursion bound — the
loop itself is bounded by `max_steps - current_step` whenever `step`
does not decrease `current_step`), the agent, the local `stuck_count`,
the accumulated `results` list, and the ghost iteration / stuck-detection
counters.  Note the source appends the per-step summary *after* the
stuck check, reads `self.current_step` *after* `step()` ran, and on a
stuck `break` appends nothing. -/
def runLoop (step : StepFn) :
    Nat → AgentSt → Nat → List String → Nat → Nat → LoopOut
  | 0, s, _, results, iters, stucks =>
    if ¬ s.current_step < s.max_steps then ⟨s, results, iters, .maxSteps, stucks⟩
    else if s.state = .FINISHED then ⟨s, results, iters, .finished, stucks⟩
    else ⟨s, results, iters, .fuelOut, stucks⟩
  | fuel + 1, s, stuck_count, results, iters, stucks =>
    if ¬ s.current_step < s.max_steps then ⟨s, results, iters, .maxSteps, stucks⟩
    else if s.state = .FINISHED then ⟨s, results, iters, .finished, stucks⟩
    else
      let s1 := { s with current_step := s.current_step + 1 }
      match step s1 with
      | (Except.ok step_result, s2) =>
        if is_stuck s2 then
          if stuck_count + 1 ≥ 3 then
            ⟨s2, results, iters + 1, .stuckBreak, stucks + 1⟩
          else
            runLoop step fuel (handle_stuck_state s2) (stuck_count + 1)
              (results ++
                ["Step " ++ toString s2.current_step ++ ": " ++ step_result])
              (iters + 1) (stucks + 1)
        else
          runLoop step fuel s2 0
            (results ++
              ["Step " ++ toString s2.current_step ++ ": " ++ step_result])
            (iters + 1) stucks
      | (Except.error e, s2) =>
        ⟨s2, results ++ ["Error in step " ++ toString s2.current_step ++ ": " ++ e],
          iters + 1, .faultBreak, stucks⟩

/-- The max-steps termination marker appended by `BaseAgent.run`
(line 154). -/
def maxMarker (k : Nat) : String :=
  "Terminated: Reached max steps (" ++ toString k ++ ")"

/-- The body of the `async with self.state_context(AgentState.RUNNING)`
block of `BaseAgent.run`: the while loop followed by the max-steps
postlude (lines 151-154).  It never raises (step faults are caught inside
the loop).  Carries, besides the final results, the ghost iteration
count, exit reason, and the results list as it stood before the postlude. -/
def runBody (step : StepFn) (s0 : AgentSt) :
    Except (String × AgentSt)
      ((List String × Nat × ExitReason × Nat × List String) × AgentSt) :=
  let lo := runLoop step s0.max_steps s0 0 [] 0 0
  if lo.s.current_step ≥ lo.s.max_steps then
    Except.ok ((lo.results ++ [maxMarker lo.s.max_steps], lo.iters, lo.reason,
        lo.stucks, lo.results),
      { lo.s with current_step := 0, state := .IDLE })
  else
    Except.ok ((lo.results, lo.iters, lo.reason, lo.stucks, lo.results), lo.s)

/-- Embedding of `BaseAgent.update_memory` (`app/agent/base.py`): build the message for
the given role and add it to the agent's memory.  The role is statically
one of the four recognized literals, so the `ValueError` branch is
unreachable; the optional `name`/`tool_call_id` keyword arguments are only
consumed by the tool constructor.  Any exception from
`Memory.add_message` propagates. -/
def update_memory (agent : AgentSt) (role : Role) (content : String)
    (kwName kwToolCallId : Option String) : Option String × AgentSt :=
  let msg :=
    match role with
    | .user => Message.user_message content
    | .system => Message.system_message content
    | .assistant => Message.assistant_message (some content)
    | .tool => Message.tool_message content kwName kwToolCallId
  let out := agent.memory.add_message msg
  (out.fault, { agent with memory := out.memory })

/-- All observable outputs of one `BaseAgent.run` call: the final
`results` list (`run` returns their newline join), the agent after `run`
returns, and ghost instrumentation — loop iteration count, exit reason,
and the results list before the max-steps postlude. -/
structure RunOut where
  results : List String
  final : AgentSt
  iters : Nat
  reason : ExitReason
  stucks : Nat
  loopResults : List String

/-- Embedding of `BaseAgent.run` (`app/agent/base.py`): IDLE guard, optional initial
user message, then the loop and postlude inside
`state_context(RUNNING)`.  `Except.error` carries an exception that
escapes `run` (the non-IDLE `RuntimeError`, or an exception raised while
appending the initial request). -/
def runTrace (step : StepFn) (request : Option String) (agent : AgentSt) :
    Except String RunOut :=
  if agent.state ≠ .IDLE then
    Except.error ("RuntimeError: Cannot run agent from state: "
      ++ agentStateStr agent.state)
  else
    let afterReq : Except String AgentSt :=
      if optStrTruthy request then
        match update_memory agent .user (pyFormatOpt request) none none with
        | (some e, _) => Except.error e
        | (none, agent1) => Except.ok agent1
      else Except.ok agent
    match afterReq with
    | Except.error e => Except.error e
    | Except.ok agent1 =>
      match state_context .RUNNING agent1 (runBody step) with
      | (Except.ok (res, iters, reason, stucks, loopRes), fin, _) =>
        Except.ok ⟨res, fin, iters, reason, stucks, loopRes⟩
      | (Except.error e, _, _) => Except.error e

/-- The string `BaseAgent.run` returns (line 156). -/
def run (step : StepFn) (request : Option String) (agent : AgentSt) :
    Except String String :=
  (runTrace step request agent).map (fun o =>
    if o.results.isEmpty then "No steps executed"
    else String.intercalate "\n" o.results)

/-- Projection used to state closed facts about a `runTrace` call:
the `RunOut` of a successful run (successful runs are the only ones the
theorems below extract it from). -/
def getRunOut (x : Except String RunOut) : RunOut :=
  match x with
  | Except.ok o => o
  | Except.error _ => ⟨[], AgentSt.init, 0, .fuelOut, 0, []⟩

/-! ## Specification-side predicates (for refinement comparisons) -/

/-- The stuck predicate as the specification words it (§4.2): the most
recent message must be a *non-empty assistant* message, and at least
`duplicate_threshold` of the preceding assistant messages must have
content exactly equal to it. -/
def stuckSpecClaim (a : AgentSt) : Bool :=
  decide (2 ≤ a.memory.messages.length) &&
    (match a.memory.messages.getLast? with
     | none => false
     | some last =>
       decide (last.role = Role.assistant) && optStrTruthy last.content &&
         decide (a.duplicate_threshold ≤
           a.memory.messages.dropLast.countP
             (fun m => decide (m.role = Role.assistant ∧ m.content = last.content))))

/-- The stuck predicate as the code actually behaves: identical to
`stuckSpecClaim` except that the most recent message may have *any* role —
only its content is examined. -/
def stuckSpecAmended (a : AgentSt) : Bool :=
  decide (2 ≤ a.memory.messages.length) &&
    (match a.memory.messages.getLast? with
     | none => false
     | some last =>
       optStrTruthy last.content &&
         decide (a.duplicate_threshold ≤
           a.memory.messages.dropLast.countP
             (fun m => decide (m.role = Role.assistant ∧ m.content = last.content))))

/-! ## Auxiliary definitions and concrete fixtures -/

/-- The last `c` elements of a list (all of it when it is shorter). -/
def lastN (c : Nat) (l : List Message) : List Message :=
  l.drop (l.length - c)

/-- The loop exactly as `run` invokes it: from the RUNNING agent, with
fuel `max_steps`, fresh counters and an empty results list. -/
def loopOf (step : StepFn) (agent : AgentSt) : LoopOut :=
  runLoop step agent.max_steps { agent with state := .RUNNING } 0 [] 0 0

/-- A log whose most recent message is a *user* message repeating the
content of the two preceding assistant messages. -/
def cexLastUserAgent : AgentSt :=
  { AgentSt.init with memory :=
      { messages := [Message.assistant_message (some "x"),
          Message.assistant_message (some "x"), Message.user_message "x"],
        observers := [], max_messages := 100 } }

/-- A transition body that immediately raises. -/
def bodyBang : AgentSt → Except (String × AgentSt) (Unit × AgentSt) :=
  fun s => Except.error ("bang", s)

/-- An observer that raises. -/
def obsBoom : Observer := fun _ => Except.error "boom"

/-- An observer that succeeds. -/
def obsNoop : Observer := fun _ => Except.ok ()

/-- An empty log with a faulting observer registered before a healthy
one. -/
def memTwoObs : Memory :=
  { messages := [], observers := [obsBoom, obsNoop], max_messages := 100 }

/-- A log holding exactly one message. -/
def memOneMsg : Memory :=
  { messages := [Message.user_message "a"], observers := [], max_messages := 100 }

/-- An empty registry. -/
def tcNone : ToolCollection := ⟨[]⟩

/-- A registered tool whose capability always raises. -/
def toolKaboom : Tool := ⟨"boom", fun _ => Except.error "kaboom"⟩

/-- A registry holding only `toolKaboom`. -/
def tcKaboom : ToolCollection := ⟨[toolKaboom]⟩

/-- A memory already filled to its capacity of 100, with a faulting
observer registered. -/
def memFullObs : Memory :=
  { messages := List.replicate 100 (Message.user_message "a"),
    observers := [fun _ => Except.error "observer down"], max_messages := 100 }

/-- A batch of 105 identical messages. -/
def batch105 : List Message := List.replicate 105 (Message.user_message "m")

/-- A step that immediately signals termination by setting FINISHED. -/
def stepFinish : StepFn := fun s => (Except.ok "done", { s with state := .FINISHED })

/-- A log of three identical non-empty assistant messages (stuck under
threshold 2). -/
def memThreeX : Memory :=
  { messages := [Message.assistant_message (some "x"),
      Message.assistant_message (some "x"), Message.assistant_message (some "x")],
    observers := [], max_messages := 100 }

/-- A step whose result state is always stuck: it pins the memory to
`memThreeX` and the threshold to 2, keeps the counters, and stays
RUNNING. -/
def stepAlwaysStuck : StepFn :=
  fun s => (Except.ok "r", { s with state := .RUNNING, memory := memThreeX, duplicate_threshold := 2 })

/-- A step that does nothing observable: empty memory (never stuck),
RUNNING state, counters kept. -/
def stepPlain : StepFn :=
  fun s => (Except.ok "w", { s with state := .RUNNING, memory := Memory.init })

/-- A log seeded with two identical non-empty assistant messages. -/
def memSeedX : Memory :=
  { messages := [Message.assistant_message (some "x"),
      Message.assistant_message (some "x")], observers := [], max_messages := 100 }

/-- A step producing the periodic stuck pattern stuck-stuck-not: on every
third iteration it appends a content-less assistant message (not stuck),
otherwise another assistant "x" (stuck, given the `memSeedX` seed). -/
def stepPattern : StepFn := fun s =>
  let msg := if s.current_step % 3 = 0 then Message.assistant_message none
    else Message.assistant_message (some "x")
  (Except.ok "p", { s with state := .RUNNING, memory := (s.memory.add_message msg).memory })

/-- A fresh agent with `max_steps = 2`. -/
def agentMax2 : AgentSt := { AgentSt.init with max_steps := 2 }

/-- A fresh agent with `max_steps = 3`. -/
def agentMax3 : AgentSt := { AgentSt.init with max_steps := 3 }

/-- A fresh agent with `max_steps = 5`. -/
def agentMax5 : AgentSt := { AgentSt.init with max_steps := 5 }

/-- A fresh agent with `max_steps = 7` and the seeded log. -/
def agentPattern : AgentSt := { AgentSt.init with max_steps := 7, memory := memSeedX }

/-! ## C4: the stuck detector -/

/-- C4 counterexample: `is_stuck` does not require the most recent message
to be an assistant message.  With `duplicate_threshold = 2` and log
`[assistant "x", assistant "x", user "x"]` the code reports stuck, while
the claimed predicate (most recent message is a non-empty *assistant*
message) is false — so the claimed "iff" fails on this input. -/
theorem is_stuck_ignores_last_role_cex :
    is_stuck cexLastUserAgent = true ∧ stuckSpecClaim cexLastUserAgent = false := by
  constructor
  · decide
  · decide

/-- C4 amended: `is_stuck` returns true iff the log has at least two
messages, the most recent message (of any role) has non-empty content, and
at least `duplicate_threshold` of the preceding assistant messages have
content exactly equal to it. -/
theorem is_stuck_iff_amended_spec (a : AgentSt) :
    is_stuck a = stuckSpecAmended a := by
  unfold is_stuck stuckSpecAmended
  rcases hl : a.memory.messages.getLast? with _ | last
  · have hnil : a.memory.messages = [] := by simpa using hl
    simp [hnil]
  · by_cases h2 : a.memory.messages.length < 2
    · have : ¬ 2 ≤ a.memory.messages.length := by omega
      simp [h2, this]
    · have h2' : 2 ≤ a.memory.messages.length := by omega
      by_cases hc : optStrTruthy last.content
      · simp [h2, h2', hc, List.countP_eq_length_filter, List.filter_reverse,
          List.length_reverse]
      · simp [h2, h2', hc]

/-! ## C2: the scoped state transition -/

/-- C2: if the body run inside `state_context` raises, the `except`
branch sets the state to ERROR at the moment of the fault (ghost third
component), the fault is re-raised, and after the scope exits the agent's
state equals the state held immediately before the transition began. -/
theorem state_context_fault_error_then_revert {α : Type}
    (new_state : AgentState) (agent : AgentSt)
    (body : AgentSt → Except (String × AgentSt) (α × AgentSt))
    (e : String) (s2 : AgentSt)
    (h : body { agent with state := new_state } = Except.error (e, s2)) :
    state_context new_state agent body
      = (Except.error e, { s2 with state := agent.state }, some AgentState.ERROR) := by
  unfold state_context
  rw [h]

/-- Witness for C2 at a concrete input: a body raising `"bang"` inside a
RUNNING transition of a fresh agent leaves the agent exactly as before
(state IDLE), with the ERROR assignment observed at the fault. -/
theorem state_context_fault_error_then_revert_witness :
    state_context .RUNNING AgentSt.init bodyBang
      = (Except.error "bang", AgentSt.init, some AgentState.ERROR) :=
  state_context_fault_error_then_revert .RUNNING AgentSt.init bodyBang "bang" _ rfl

/-! ## C3: observer fault isolation -/

/-- C3 failing input evaluated: when the first observer raises during
`add_message`, the handler's `logger.error` call itself raises `NameError`
(`app/schema.py` has no `logger` import), so the fault is *not* isolated:
a `NameError` escapes `add_message`, the second observer is never notified
(only 1 of 2 observers invoked), and only the append itself survives. -/
theorem observer_fault_escapes_add_message :
    (memTwoObs.add_message (Message.user_message "hi")).fault = some loggerNameError
    ∧ (memTwoObs.add_message (Message.user_message "hi")).notified = 1
    ∧ (memTwoObs.add_message (Message.user_message "hi")).memory.messages
        = [Message.user_message "hi"] :=
  ⟨rfl, rfl, rfl⟩

/-! ## C9: recent messages at n = 0 -/

/-- C9 failing input evaluated: `get_recent_messages(0)` is
`self.messages[-0:]`, i.e. the *whole* log, not the empty list the
specification promises for `n = 0`. -/
theorem get_recent_zero_returns_whole_log :
    memOneMsg.get_recent_messages 0 = [Message.user_message "a"]
    ∧ memOneMsg.get_recent_messages 0 ≠ [] := by
  exact ⟨rfl, by decide⟩

/-! ## C7: the tool dispatcher -/

/-- C7 counterexample: `ToolCollection.execute` never builds a
`ToolResult`.  Both for an unregistered name and for a faulting tool it
returns a plain string (`"Error: ..."`), so the claimed "ToolResult with
populated `error` and empty `output`" envelope is false on these inputs. -/
theorem execute_returns_plain_string_cex :
    tcNone.execute (some "foo") [] = PyValue.str "Error: Tool 'foo' not found"
    ∧ isErrorEnvelope (tcNone.execute (some "foo") []) = false
    ∧ tcKaboom.execute (some "boom") [] = PyValue.str "Error: kaboom"
    ∧ isErrorEnvelope (tcKaboom.execute (some "boom") []) = false := by
  refine ⟨rfl, rfl, rfl, rfl⟩

/-- C7 amended: dispatch failures are returned, not raised, but as plain
strings: an absent name yields the string `"Error: Tool '<name>' not
found"`, a fault raised by a registered tool's capability is caught and
converted to the string `"Error: <message>"`, and every path of
`execute` returns a plain string (a tool fault never escapes as a raised
fault). -/
theorem execute_error_paths_plain_strings (tc : ToolCollection) (n : String)
    (args : ToolInput) :
    (n ≠ "" → tc.get_tool n = none →
      tc.execute (some n) args = PyValue.str ("Error: Tool '" ++ n ++ "' not found"))
    ∧ (∀ tool e, n ≠ "" → tc.get_tool n = some tool →
      tool.exec args = Except.error e →
      tc.execute (some n) args = PyValue.str ("Error: " ++ e))
    ∧ (∀ nm : Option String, ∃ s, tc.execute nm args = PyValue.str s) := by
  refine ⟨?_, ?_, ?_⟩
  · intro hne hnone
    simp [ToolCollection.execute, optStrTruthy, hne, pyFormatOpt, hnone]
  · intro tool e hne hsome herr
    simp [ToolCollection.execute, optStrTruthy, hne, pyFormatOpt, hsome, herr]
  · intro nm
    unfold ToolCollection.execute
    by_cases ht : optStrTruthy nm
    · simp only [ht, not_true_eq_false, if_false]
      rcases hg : tc.get_tool (pyFormatOpt nm) with _ | tool
      · simp [hg]
      · rcases hx : tool.exec args with e | r
        · simp [hg, hx]
        · simp [hg, hx]
    · simp [ht]

/-- Witness for C7's amended statement at concrete inputs: the registry
holding only the always-faulting tool, looked up under an absent name and
under its own name. -/
theorem execute_error_paths_plain_strings_witness :
    tcKaboom.execute (some "nope") [] = PyValue.str "Error: Tool 'nope' not found"
    ∧ tcKaboom.execute (some "boom") [] = PyValue.str "Error: kaboom"
    ∧ (∃ s, tcKaboom.execute none [] = PyValue.str s) :=
  ⟨(execute_error_paths_plain_strings tcKaboom "nope" []).1 (by decide) rfl,
   (execute_error_paths_plain_strings tcKaboom "boom" []).2.1 toolKaboom "kaboom"
     (by decide) rfl rfl,
   (execute_error_paths_plain_strings tcKaboom "boom" []).2.2 none⟩

/-! ## C8: log capacity -/

/-- For a positive capacity the trim expression of `add_message` is
exactly `lastN`. -/
theorem trim_eq_lastN (c : Nat) (hc : 1 ≤ c) (l : List Message) :
    (if l.length > c then pySliceLastN l c else l) = lastN c l := by
  unfold pySliceLastN lastN
  by_cases h : l.length > c
  · have hc0 : c ≠ 0 := by omega
    simp [h, hc0]
  · have h0 : l.length - c = 0 := by omega
    simp [h, h0]

/-- Lemma: `lastN` absorbs an earlier `lastN` under appending. -/
theorem lastN_append_lastN (c : Nat) (l r : List Message) :
    lastN c (lastN c l ++ r) = lastN c (l ++ r) := by
  unfold lastN
  rw [← List.drop_append_of_le_length (Nat.sub_le l.length c)]
  rw [List.drop_drop]
  congr 1
  simp only [List.length_drop, List.length_append]
  omega

/-- Fields of `add_message` on a memory with no observers: no fault, the
observers and capacity unchanged, the log appended then trimmed. -/
theorem add_message_no_obs (mem : Memory) (m : Message)
    (hobs : mem.observers = []) :
    (mem.add_message m).fault = none
    ∧ (mem.add_message m).memory.observers = []
    ∧ (mem.add_message m).memory.max_messages = mem.max_messages
    ∧ (mem.add_message m).memory.messages =
        (if (mem.messages ++ [m]).length > mem.max_messages
         then pySliceLastN (mem.messages ++ [m]) mem.max_messages
         else mem.messages ++ [m]) := by
  unfold Memory.add_message
  simp [hobs, notifyLoop]

/-- Folding `add_message` over a faultless (observer-free) memory keeps
exactly the last `max_messages` entries of everything ever appended. -/
theorem addAll_messages_no_obs (c : Nat) (hc : 1 ≤ c) :
    ∀ (msgs : List Message) (mem : Memory), mem.observers = [] →
      mem.max_messages = c → mem.messages.length ≤ c →
      (mem.addAll msgs).messages = lastN c (mem.messages ++ msgs) := by
  intro msgs
  induction msgs with
  | nil =>
    intro mem hobs hmax hlen
    have h0 : mem.messages.length - c = 0 := by omega
    simp [Memory.addAll, lastN, h0]
  | cons m rest ih =>
    intro mem hobs hmax hlen
    have hadd := add_message_no_obs mem m hobs
    have htrim : (mem.add_message m).memory.messages
        = lastN c (mem.messages ++ [m]) := by
      rw [hadd.2.2.2, hmax]
      exact trim_eq_lastN c hc _
    have hstep : (mem.addAll (m :: rest)) = ((mem.add_message m).memory).addAll rest := by
      simp [Memory.addAll]
    rw [hstep]
    rw [ih ((mem.add_message m).memory) hadd.2.1 (by rw [hadd.2.2.1, hmax])
      (by rw [htrim]; unfold lastN; simp only [List.length_drop]; omega)]
    rw [htrim]
    rw [lastN_append_lastN]
    simp

/-- C8 counterexample: an append during which an observer faults skips
the capacity trim (the fault escapes before the trim runs, because the
handler's `logger.error` raises `NameError`), so the log grows to 101
entries — above the capacity of 100. -/
theorem capacity_exceeded_on_observer_fault_cex :
    (memFullObs.add_message (Message.user_message "b")).memory.messages.length = 101
    ∧ ¬ (memFullObs.add_message (Message.user_message "b")).memory.messages.length
        ≤ memFullObs.max_messages := by
  constructor
  · decide
  · decide

/-- C8 amended: provided no observer fault aborts the append, the log
length never exceeds a positive capacity; and appending `capacity + 5`
messages to a fresh memory (capacity 100, no observers) leaves exactly the
last 100 — the oldest 5 evicted, insertion order preserved among the
survivors. -/
theorem capacity_bound_and_eviction :
    (∀ (mem : Memory) (m : Message), 1 ≤ mem.max_messages →
      (mem.add_message m).fault = none →
      (mem.add_message m).memory.messages.length ≤ mem.max_messages)
    ∧ (∀ msgs : List Message, msgs.length = Memory.init.max_messages + 5 →
      (Memory.init.addAll msgs).messages = msgs.drop 5
      ∧ (Memory.init.addAll msgs).messages.length = Memory.init.max_messages) := by
  constructor
  · intro mem m hc hf
    unfold Memory.add_message at *
    rcases hnl : notifyLoop mem.observers m with ⟨n, fault⟩
    rcases fault with _ | e
    · simp only [hnl] at *
      rw [trim_eq_lastN mem.max_messages hc]
      unfold lastN
      simp only [List.length_drop]
      omega
    · simp [hnl] at hf
  · intro msgs hlen
    have h := addAll_messages_no_obs 100 (by omega) msgs Memory.init rfl rfl
      (by simp [Memory.init])
    have hlen100 : Memory.init.max_messages = 100 := rfl
    have hdrop : lastN 100 (Memory.init.messages ++ msgs) = msgs.drop 5 := by
      unfold lastN
      have : Memory.init.messages ++ msgs = msgs := rfl
      rw [this]
      congr 1
      rw [hlen100] at hlen
      omega
    refine ⟨by rw [h, hdrop], ?_⟩
    rw [h, hdrop]
    simp only [List.length_drop]
    rw [hlen100] at hlen ⊢
    omega

/-- Witness for C8's amended statement: a concrete faultless append stays
within capacity, and the concrete 105-message batch leaves the last 100. -/
theorem capacity_bound_and_eviction_witness :
    ((Memory.init.add_message (Message.user_message "w")).fault = none
      ∧ (Memory.init.add_message (Message.user_message "w")).memory.messages.length
          ≤ Memory.init.max_messages)
    ∧ (batch105.length = Memory.init.max_messages + 5
      ∧ (Memory.init.addAll batch105).messages = batch105.drop 5) :=
  ⟨⟨rfl, capacity_bound_and_eviction.1 Memory.init (Message.user_message "w")
      (by decide) rfl⟩,
   ⟨by decide, (capacity_bound_and_eviction.2 batch105 (by decide)).1⟩⟩

/-! ## Loop lemmas shared by the run-level claims -/

/-- With a step that never faults, never sets FINISHED, keeps the
counters and is never stuck, the loop runs the remaining
`max_steps - current_step` iterations and exits on the step bound. -/
theorem runLoop_runs_to_max (step : StepFn)
    (hok : ∀ s, ∃ r, (step s).1 = Except.ok r)
    (hfin : ∀ s, (step s).2.state ≠ .FINISHED)
    (hcs : ∀ s, (step s).2.current_step = s.current_step)
    (hms : ∀ s, (step s).2.max_steps = s.max_steps)
    (hstuck : ∀ s, is_stuck (step s).2 = false) :
    ∀ (fuel : Nat) (s : AgentSt) (res : List String) (iters stucks : Nat),
      s.state ≠ .FINISHED → s.current_step ≤ s.max_steps →
      s.max_steps - s.current_step ≤ fuel →
      (runLoop step fuel s 0 res iters stucks).reason = .maxSteps
      ∧ (runLoop step fuel s 0 res iters stucks).iters
          = iters + (s.max_steps - s.current_step)
      ∧ (runLoop step fuel s 0 res iters stucks).stucks = stucks
      ∧ (runLoop step fuel s 0 res iters stucks).s.current_step = s.max_steps
      ∧ (runLoop step fuel s 0 res iters stucks).s.max_steps = s.max_steps := by
  intro fuel
  induction fuel with
  | zero =>
    intro s res iters stucks hsfin hle hfu
    simp only [runLoop]
    rw [if_pos (show ¬ s.current_step < s.max_steps by omega)]
    exact ⟨rfl, show iters = iters + (s.max_steps - s.current_step) by omega, rfl,
      show s.current_step = s.max_steps by omega, rfl⟩
  | succ fuel ih =>
    intro s res iters stucks hsfin hle hfu
    by_cases hlt : s.current_step < s.max_steps
    · obtain ⟨r, hr⟩ := hok { s with current_step := s.current_step + 1 }
      rcases hsp : step { s with current_step := s.current_step + 1 } with ⟨f, s2⟩
      rw [hsp] at hr
      simp only at hr
      subst hr
      have h2fin : s2.state ≠ AgentState.FINISHED := by
        have := hfin { s with current_step := s.current_step + 1 }
        rw [hsp] at this; exact this
      have h2cs : s2.current_step = s.current_step + 1 := by
        have := hcs { s with current_step := s.current_step + 1 }
        rw [hsp] at this; exact this
      have h2ms : s2.max_steps = s.max_steps := by
        have := hms { s with current_step := s.current_step + 1 }
        rw [hsp] at this; exact this
      have h2st : is_stuck s2 = false := by
        have := hstuck { s with current_step := s.current_step + 1 }
        rw [hsp] at this; exact this
      simp only [runLoop]
      rw [if_neg (show ¬ ¬ s.current_step < s.max_steps by omega), if_neg hsfin, hsp]
      simp only [h2st, Bool.false_eq_true, if_false]
      have hrec := ih s2 (res ++ ["Step " ++ toString s2.current_step ++ ": " ++ r])
        (iters + 1) stucks h2fin (by omega) (by omega)
      refine ⟨hrec.1, ?_, hrec.2.2.1, ?_, ?_⟩
      · rw [hrec.2.1, h2cs, h2ms]; omega
      · rw [hrec.2.2.2.1, h2ms]
      · rw [hrec.2.2.2.2, h2ms]
    · simp only [runLoop]
      rw [if_pos (show ¬ s.current_step < s.max_steps by omega)]
      exact ⟨rfl, show iters = iters + (s.max_steps - s.current_step) by omega, rfl,
        show s.current_step = s.max_steps by omega, rfl⟩

/-- With a step that never faults, never sets FINISHED, keeps the
counters and is always stuck, the loop breaks after the stuck-retry
counter reaches 3: exactly `3 - stuck_count` more iterations, all
flagged stuck. -/
theorem runLoop_always_stuck (step : StepFn)
    (hok : ∀ s, ∃ r, (step s).1 = Except.ok r)
    (hfin : ∀ s, (step s).2.state ≠ .FINISHED)
    (hcs : ∀ s, (step s).2.current_step = s.current_step)
    (hms : ∀ s, (step s).2.max_steps = s.max_steps)
    (hstuck : ∀ s, is_stuck (step s).2 = true) :
    ∀ (fuel : Nat) (s : AgentSt) (sc : Nat) (res : List String) (iters stucks : Nat),
      s.state ≠ .FINISHED → sc < 3 →
      s.current_step + (3 - sc) ≤ s.max_steps → 3 - sc ≤ fuel →
      (runLoop step fuel s sc res iters stucks).reason = .stuckBreak
      ∧ (runLoop step fuel s sc res iters stucks).iters = iters + (3 - sc)
      ∧ (runLoop step fuel s sc res iters stucks).stucks = stucks + (3 - sc) := by
  intro fuel
  induction fuel with
  | zero =>
    intro s sc res iters stucks hsfin hsc hcsb hfu
    exact absurd hfu (by omega)
  | succ fuel ih =>
    intro s sc res iters stucks hsfin hsc hcsb hfu
    obtain ⟨r, hr⟩ := hok { s with current_step := s.current_step + 1 }
    rcases hsp : step { s with current_step := s.current_step + 1 } with ⟨f, s2⟩
    rw [hsp] at hr
    simp only at hr
    subst hr
    have h2fin : s2.state ≠ AgentState.FINISHED := by
      have := hfin { s with current_step := s.current_step + 1 }
      rw [hsp] at this; exact this
    have h2cs : s2.current_step = s.current_step + 1 := by
      have := hcs { s with current_step := s.current_step + 1 }
      rw [hsp] at this; exact this
    have h2ms : s2.max_steps = s.max_steps := by
      have := hms { s with current_step := s.current_step + 1 }
      rw [hsp] at this; exact this
    have h2st : is_stuck s2 = true := by
      have := hstuck { s with current_step := s.current_step + 1 }
      rw [hsp] at this; exact this
    simp only [runLoop]
    rw [if_neg (show ¬ ¬ s.current_step < s.max_steps by omega), if_neg hsfin, hsp]
    simp only [h2st, if_true]
    by_cases hsc3 : sc + 1 ≥ 3
    · rw [if_pos hsc3]
      exact ⟨rfl, show iters + 1 = iters + (3 - sc) by omega,
        show stucks + 1 = stucks + (3 - sc) by omega⟩
    · rw [if_neg hsc3]
      have hhs : (handle_stuck_state s2).state = s2.state
          ∧ (handle_stuck_state s2).current_step = s2.current_step
          ∧ (handle_stuck_state s2).max_steps = s2.max_steps := ⟨rfl, rfl, rfl⟩
      have hrec := ih (handle_stuck_state s2) (sc + 1)
        (res ++ ["Step " ++ toString s2.current_step ++ ": " ++ r])
        (iters + 1) (stucks + 1)
        (by rw [hhs.1]; exact h2fin) (by omega)
        (by rw [hhs.2.1, hhs.2.2, h2cs, h2ms]; omega) (by omega)
      refine ⟨hrec.1, ?_, ?_⟩
      · rw [hrec.2.1]; omega
      · rw [hrec.2.2]; omega

/-- Accounting for a loop that exited through the stuck-retry break
(step keeping the counters): every iteration except the breaking one
appended exactly one summary, at least one iteration ran, and the step
counter advanced once per iteration. -/
theorem runLoop_stuckBreak_facts (step : StepFn)
    (hcs : ∀ s, (step s).2.current_step = s.current_step)
    (hms : ∀ s, (step s).2.max_steps = s.max_steps) :
    ∀ (fuel : Nat) (s : AgentSt) (sc : Nat) (res : List String) (iters stucks : Nat),
      (runLoop step fuel s sc res iters stucks).reason = .stuckBreak →
      (runLoop step fuel s sc res iters stucks).results.length + 1
          = res.length + ((runLoop step fuel s sc res iters stucks).iters - iters)
      ∧ iters < (runLoop step fuel s sc res iters stucks).iters
      ∧ (runLoop step fuel s sc res iters stucks).s.current_step
          = s.current_step + ((runLoop step fuel s sc res iters stucks).iters - iters)
      ∧ (runLoop step fuel s sc res iters stucks).s.max_steps = s.max_steps := by
  intro fuel
  induction fuel with
  | zero =>
    intro s sc res iters stucks h
    simp only [runLoop] at h
    by_cases h1 : ¬ s.current_step < s.max_steps
    · rw [if_pos h1] at h; simp at h
    · rw [if_neg h1] at h
      by_cases h2 : s.state = AgentState.FINISHED
      · rw [if_pos h2] at h; simp at h
      · rw [if_neg h2] at h; simp at h
  | succ fuel ih =>
    intro s sc res iters stucks h
    by_cases h1 : ¬ s.current_step < s.max_steps
    · simp only [runLoop] at h
      rw [if_pos h1] at h; simp at h
    · by_cases h2 : s.state = AgentState.FINISHED
      · simp only [runLoop] at h
        rw [if_neg h1, if_pos h2] at h; simp at h
      · rcases hsp : step { s with current_step := s.current_step + 1 } with ⟨f, s2⟩
        have h2cs : s2.current_step = s.current_step + 1 := by
          have := hcs { s with current_step := s.current_step + 1 }
          rw [hsp] at this; exact this
        have h2ms : s2.max_steps = s.max_steps := by
          have := hms { s with current_step := s.current_step + 1 }
          rw [hsp] at this; exact this
        simp only [runLoop] at h ⊢
        rw [if_neg h1, if_neg h2, hsp] at h ⊢
        rcases f with e | r
        · simp at h
        · by_cases hst : is_stuck s2
          · simp only [hst, if_true] at h ⊢
            by_cases hsc3 : sc + 1 ≥ 3
            · rw [if_pos hsc3] at h ⊢
              refine ⟨by simp, by simp, ?_, by simp [h2ms]⟩
              simp [h2cs]
            · rw [if_neg hsc3] at h ⊢
              obtain ⟨ha, hb, hcc, hd⟩ := ih (handle_stuck_state s2) (sc + 1)
                (res ++ ["Step " ++ toString s2.current_step ++ ": " ++ r])
                (iters + 1) (stucks + 1) h
              have hhcs : (handle_stuck_state s2).current_step = s2.current_step := rfl
              have hhms : (handle_stuck_state s2).max_steps = s2.max_steps := rfl
              simp only [List.length_append, List.length_cons, List.length_nil] at ha
              refine ⟨by omega, by omega, by omega, by omega⟩
          · simp only [hst, Bool.false_eq_true, if_false] at h ⊢
            obtain ⟨ha, hb, hcc, hd⟩ := ih s2 0
              (res ++ ["Step " ++ toString s2.current_step ++ ": " ++ r])
              (iters + 1) stucks h
            simp only [List.length_append, List.length_cons, List.length_nil] at ha
            refine ⟨by omega, by omega, by omega, by omega⟩

/-- A loop entered in state FINISHED performs no iteration. -/
theorem runLoop_finished_state (step : StepFn) (fuel : Nat) (s : AgentSt)
    (sc : Nat) (res : List String) (iters stucks : Nat)
    (h : s.state = .FINISHED) :
    (runLoop step fuel s sc res iters stucks).iters = iters := by
  cases fuel with
  | zero =>
    simp only [runLoop]
    by_cases h1 : ¬ s.current_step < s.max_steps
    · rw [if_pos h1]
    · rw [if_neg h1, if_pos h]
  | succ fuel =>
    simp only [runLoop]
    by_cases h1 : ¬ s.current_step < s.max_steps
    · rw [if_pos h1]
    · rw [if_neg h1, if_pos h]

/-- With a step that never faults and always sets FINISHED, the loop
performs exactly one iteration. -/
theorem runLoop_one_iteration_finished (step : StepFn)
    (hok : ∀ s, ∃ r, (step s).1 = Except.ok r)
    (hfin : ∀ s, (step s).2.state = .FINISHED)
    (fuel : Nat) (s : AgentSt) (res : List String) (iters stucks : Nat)
    (hfu : 1 ≤ fuel)
    (hlt : s.current_step < s.max_steps) (hsfin : s.state ≠ .FINISHED) :
    (runLoop step fuel s 0 res iters stucks).iters = iters + 1 := by
  obtain ⟨f, hf⟩ : ∃ f, fuel = f + 1 := ⟨fuel - 1, by omega⟩
  subst hf
  obtain ⟨r, hrr⟩ := hok { s with current_step := s.current_step + 1 }
  rcases hsp : step { s with current_step := s.current_step + 1 } with ⟨ff, s2⟩
  rw [hsp] at hrr
  simp only at hrr
  subst hrr
  have h2fin : s2.state = AgentState.FINISHED := by
    have := hfin { s with current_step := s.current_step + 1 }
    rw [hsp] at this; exact this
  simp only [runLoop]
  rw [if_neg (show ¬ ¬ s.current_step < s.max_steps by omega), if_neg hsfin, hsp]
  by_cases hst : is_stuck s2
  · simp only [hst, if_true]
    rw [if_neg (show ¬ 0 + 1 ≥ 3 by omega)]
    exact runLoop_finished_state step f (handle_stuck_state s2) (0 + 1) _ (iters + 1)
      (stucks + 1) h2fin
  · simp only [hst, Bool.false_eq_true, if_false]
    exact runLoop_finished_state step f s2 0 _ (iters + 1) stucks h2fin

/-- One non-stuck iteration of the loop: the stuck-retry counter passed
to the next iteration is reset to zero, whatever it was. -/
theorem not_stuck_resets_counter (step : StepFn) (fuel : Nat) (s : AgentSt)
    (sc : Nat) (res : List String) (iters stucks : Nat) (r : String)
    (s2 : AgentSt)
    (hlt : s.current_step < s.max_steps) (hsfin : s.state ≠ .FINISHED)
    (hstep : step { s with current_step := s.current_step + 1 }
      = (Except.ok r, s2))
    (hnst : is_stuck s2 = false) :
    runLoop step (fuel + 1) s sc res iters stucks
      = runLoop step fuel s2 0
          (res ++ ["Step " ++ toString s2.current_step ++ ": " ++ r])
          (iters + 1) stucks := by
  simp only [runLoop]
  rw [if_neg (show ¬ ¬ s.current_step < s.max_steps by omega), if_neg hsfin, hstep]
  simp only [hnst, Bool.false_eq_true, if_false]

/-- Characterization of a `run` call from IDLE with no initial request:
the outcome is ok, its ghost fields mirror the loop, the final state is
the pre-run state, and the results only gain the max-steps marker when
the loop left the counter at or above the bound. -/
theorem runTrace_of_idle (step : StepFn) (agent : AgentSt)
    (h : agent.state = .IDLE) :
    ∃ out, runTrace step none agent = Except.ok out
    ∧ out.iters = (loopOf step agent).iters
    ∧ out.reason = (loopOf step agent).reason
    ∧ out.stucks = (loopOf step agent).stucks
    ∧ out.loopResults = (loopOf step agent).results
    ∧ out.final.state = agent.state
    ∧ out.final.max_steps = (loopOf step agent).s.max_steps
    ∧ ((loopOf step agent).s.max_steps ≤ (loopOf step agent).s.current_step →
        out.results = (loopOf step agent).results
            ++ [maxMarker (loopOf step agent).s.max_steps]
        ∧ out.final.current_step = 0)
    ∧ (¬ (loopOf step agent).s.max_steps ≤ (loopOf step agent).s.current_step →
        out.results = (loopOf step agent).results
        ∧ out.final.current_step = (loopOf step agent).s.current_step) := by
  have hni : ¬ agent.state ≠ AgentState.IDLE := by simp [h]
  have hrun : runTrace step none agent =
      (match state_context .RUNNING agent (runBody step) with
       | (Except.ok (res, iters, reason, stucks, loopRes), fin, _) =>
           Except.ok ⟨res, fin, iters, reason, stucks, loopRes⟩
       | (Except.error e, _, _) => Except.error e) := by
    unfold runTrace
    rw [if_neg hni]
    rfl
  by_cases hge : (runLoop step agent.max_steps
        { agent with state := AgentState.RUNNING } 0 [] 0 0).s.max_steps
      ≤ (runLoop step agent.max_steps
        { agent with state := AgentState.RUNNING } 0 [] 0 0).s.current_step
  · have hbody : runBody step { agent with state := AgentState.RUNNING } =
        Except.ok (((loopOf step agent).results
            ++ [maxMarker (loopOf step agent).s.max_steps],
          (loopOf step agent).iters, (loopOf step agent).reason,
          (loopOf step agent).stucks, (loopOf step agent).results),
          { (loopOf step agent).s with current_step := 0, state := AgentState.IDLE }) := by
      simp only [runBody, loopOf, ge_iff_le]
      rw [if_pos hge]
    refine ⟨⟨(loopOf step agent).results
        ++ [maxMarker (loopOf step agent).s.max_steps],
      { (loopOf step agent).s with current_step := 0, state := agent.state },
      (loopOf step agent).iters, (loopOf step agent).reason,
      (loopOf step agent).stucks, (loopOf step agent).results⟩,
      ?_, rfl, rfl, rfl, rfl, rfl, rfl,
      fun _ => ⟨rfl, rfl⟩, fun hn => absurd hge hn⟩
    rw [hrun]
    unfold state_context
    rw [hbody]
  · have hbody : runBody step { agent with state := AgentState.RUNNING } =
        Except.ok (((loopOf step agent).results,
          (loopOf step agent).iters, (loopOf step agent).reason,
          (loopOf step agent).stucks, (loopOf step agent).results),
          (loopOf step agent).s) := by
      simp only [runBody, loopOf, ge_iff_le]
      rw [if_neg hge]
    refine ⟨⟨(loopOf step agent).results,
      { (loopOf step agent).s with state := agent.state },
      (loopOf step agent).iters, (loopOf step agent).reason,
      (loopOf step agent).stucks, (loopOf step agent).results⟩,
      ?_, rfl, rfl, rfl, rfl, rfl, rfl,
      fun hc => absurd hc hge, fun _ => ⟨rfl, rfl⟩⟩
    rw [hrun]
    unfold state_context
    rw [hbody]

/-- Run-level statement behind C6: a permanently stuck, never-faulting,
counter-preserving step makes `run` stop the loop after exactly 3
iterations — all 3 flagged stuck — whenever `max_steps ≥ 3`. -/
theorem stuck_loop_terminates_after_three (step : StepFn) (agent : AgentSt)
    (out : RunOut)
    (hok : ∀ s, ∃ r, (step s).1 = Except.ok r)
    (hfin : ∀ s, (step s).2.state ≠ .FINISHED)
    (hcs : ∀ s, (step s).2.current_step = s.current_step)
    (hms : ∀ s, (step s).2.max_steps = s.max_steps)
    (hstuck : ∀ s, is_stuck (step s).2 = true)
    (hidle : agent.state = .IDLE) (h0 : agent.current_step = 0)
    (h3 : 3 ≤ agent.max_steps)
    (hrun : runTrace step none agent = Except.ok out) :
    out.iters = 3 ∧ out.reason = .stuckBreak ∧ out.stucks = 3 := by
  obtain ⟨out2, hrun2, hi, hr, hs, hl, hfs, hfm, hmark, hnomark⟩ :=
    runTrace_of_idle step agent hidle
  rw [hrun] at hrun2
  injection hrun2 with he
  subst he
  have hproj1 : ({ agent with state := AgentState.RUNNING } : AgentSt).current_step
      = agent.current_step := rfl
  have hproj2 : ({ agent with state := AgentState.RUNNING } : AgentSt).max_steps
      = agent.max_steps := rfl
  have hL := runLoop_always_stuck step hok hfin hcs hms hstuck agent.max_steps
    { agent with state := AgentState.RUNNING } 0 [] 0 0
    (by simp) (by omega) (by omega) (by omega)
  unfold loopOf at hi hr hs
  obtain ⟨hLr, hLi, hLs⟩ := hL
  exact ⟨by rw [hi, hLi], by rw [hr, hLr], by rw [hs, hLs]⟩

/-! ## C5: run to the step bound -/

/-- C5: for any `max_steps = K`, a step that never faults, never sets
FINISHED, keeps the counters and is never stuck makes `run` execute
exactly K loop iterations, exit on the step bound, reset the step counter
to 0, end in IDLE, and append the terminated-at-max-steps marker as the
last entry of the returned results. -/
theorem run_reaches_max_steps (step : StepFn) (agent : AgentSt) (out : RunOut)
    (hok : ∀ s, ∃ r, (step s).1 = Except.ok r)
    (hfin : ∀ s, (step s).2.state ≠ .FINISHED)
    (hcs : ∀ s, (step s).2.current_step = s.current_step)
    (hms : ∀ s, (step s).2.max_steps = s.max_steps)
    (hstuck : ∀ s, is_stuck (step s).2 = false)
    (hidle : agent.state = .IDLE) (h0 : agent.current_step = 0)
    (hrun : runTrace step none agent = Except.ok out) :
    out.iters = agent.max_steps
    ∧ out.reason = .maxSteps
    ∧ out.final.current_step = 0
    ∧ out.final.state = .IDLE
    ∧ out.results.getLast? = some (maxMarker agent.max_steps) := by
  obtain ⟨out2, hrun2, hi, hr, hs, hl, hfs, hfm, hmark, hnomark⟩ :=
    runTrace_of_idle step agent hidle
  rw [hrun] at hrun2
  injection hrun2 with he
  subst he
  have hproj1 : ({ agent with state := AgentState.RUNNING } : AgentSt).current_step
      = agent.current_step := rfl
  have hproj2 : ({ agent with state := AgentState.RUNNING } : AgentSt).max_steps
      = agent.max_steps := rfl
  have hL := runLoop_runs_to_max step hok hfin hcs hms hstuck agent.max_steps
    { agent with state := AgentState.RUNNING } [] 0 0
    (by simp) (by omega) (by omega)
  unfold loopOf at hi hr hs hl hfm hmark hnomark
  obtain ⟨hLr, hLi, hLs, hLcs, hLms⟩ := hL
  have hcond : (runLoop step agent.max_steps
      { agent with state := AgentState.RUNNING } 0 [] 0 0).s.max_steps
      ≤ (runLoop step agent.max_steps
      { agent with state := AgentState.RUNNING } 0 [] 0 0).s.current_step := by
    omega
  obtain ⟨hres, hfcs⟩ := hmark hcond
  refine ⟨?_, ?_, hfcs, ?_, ?_⟩
  · rw [hi, hLi]; omega
  · rw [hr, hLr]
  · rw [hfs, hidle]
  · rw [hres]
    rw [List.getLast?_concat]
    have : (runLoop step agent.max_steps
        { agent with state := AgentState.RUNNING } 0 [] 0 0).s.max_steps
        = agent.max_steps := by omega
    rw [this]

/-- Witness for C5 at a concrete input: the do-nothing step with
`max_steps = 2`. -/
theorem run_reaches_max_steps_witness :
    (getRunOut (runTrace stepPlain none agentMax2)).iters = agentMax2.max_steps
    ∧ (getRunOut (runTrace stepPlain none agentMax2)).reason = .maxSteps
    ∧ (getRunOut (runTrace stepPlain none agentMax2)).final.current_step = 0
    ∧ (getRunOut (runTrace stepPlain none agentMax2)).final.state = .IDLE
    ∧ (getRunOut (runTrace stepPlain none agentMax2)).results.getLast?
        = some (maxMarker agentMax2.max_steps) :=
  run_reaches_max_steps stepPlain agentMax2 _ (fun _ => ⟨"w", rfl⟩)
    (fun _ => by simp [stepPlain]) (fun _ => rfl) (fun _ => rfl) (fun _ => rfl)
    rfl rfl rfl

/-! ## C6: the stuck-retry ceiling -/

/-- C6: (1) a permanently stuck, never-faulting, counter-preserving step
terminates the loop after exactly 3 stuck detections whenever
`max_steps ≥ 3`; (2) a non-stuck iteration resets the stuck-retry counter
to zero; (3) corroboration that the reset matters: the periodic
stuck-stuck-not step is flagged stuck 5 times during a `max_steps = 7`
run yet never breaks early — the run exits on the step bound. -/
theorem stuck_retry_ceiling_and_reset :
    (∀ (step : StepFn) (agent : AgentSt) (out : RunOut),
      (∀ s, ∃ r, (step s).1 = Except.ok r) →
      (∀ s, (step s).2.state ≠ .FINISHED) →
      (∀ s, (step s).2.current_step = s.current_step) →
      (∀ s, (step s).2.max_steps = s.max_steps) →
      (∀ s, is_stuck (step s).2 = true) →
      agent.state = .IDLE → agent.current_step = 0 → 3 ≤ agent.max_steps →
      runTrace step none agent = Except.ok out →
      out.iters = 3 ∧ out.reason = .stuckBreak ∧ out.stucks = 3)
    ∧ (∀ (step : StepFn) (fuel : Nat) (s : AgentSt) (sc : Nat)
        (res : List String) (iters stucks : Nat) (r : String) (s2 : AgentSt),
      s.current_step < s.max_steps → s.state ≠ .FINISHED →
      step { s with current_step := s.current_step + 1 } = (Except.ok r, s2) →
      is_stuck s2 = false →
      runLoop step (fuel + 1) s sc res iters stucks
        = runLoop step fuel s2 0
            (res ++ ["Step " ++ toString s2.current_step ++ ": " ++ r])
            (iters + 1) stucks)
    ∧ ((getRunOut (runTrace stepPattern none agentPattern)).iters = 7
      ∧ (getRunOut (runTrace stepPattern none agentPattern)).stucks = 5
      ∧ (getRunOut (runTrace stepPattern none agentPattern)).reason = .maxSteps
      ∧ (getRunOut (runTrace stepPattern none agentPattern)).final.current_step = 0
      ∧ (getRunOut (runTrace stepPattern none agentPattern)).final.state = .IDLE) :=
  ⟨fun step agent out h1 h2 h3 h4 h5 h6 h7 h8 h9 =>
      stuck_loop_terminates_after_three step agent out h1 h2 h3 h4 h5 h6 h7 h8 h9,
   fun step fuel s sc res iters stucks r s2 a b c d =>
      not_stuck_resets_counter step fuel s sc res iters stucks r s2 a b c d,
   ⟨rfl, rfl, rfl, rfl, rfl⟩⟩

/-- Witness for C6 at a concrete input: the always-stuck step with
`max_steps = 5` stops after 3 iterations. -/
theorem stuck_retry_ceiling_and_reset_witness :
    (getRunOut (runTrace stepAlwaysStuck none agentMax5)).iters = 3
    ∧ (getRunOut (runTrace stepAlwaysStuck none agentMax5)).reason = .stuckBreak
    ∧ (getRunOut (runTrace stepAlwaysStuck none agentMax5)).stucks = 3 :=
  stuck_retry_ceiling_and_reset.1 stepAlwaysStuck agentMax5 _
    (fun _ => ⟨"r", rfl⟩) (fun _ => by simp [stepAlwaysStuck])
    (fun _ => rfl) (fun _ => rfl) (fun _ => rfl) rfl rfl (by decide) rfl

/-! ## C1: FINISHED and the end of run -/

/-- C1 counterexample: a step that sets FINISHED ends the loop after one
iteration, yet after `run` returns the state is IDLE, not FINISHED —
the `finally` branch of `state_context` reverts it unconditionally. -/
theorem finished_not_preserved_after_run_cex :
    (getRunOut (runTrace stepFinish none AgentSt.init)).iters = 1
    ∧ (getRunOut (runTrace stepFinish none AgentSt.init)).final.state
        = AgentState.IDLE
    ∧ (getRunOut (runTrace stepFinish none AgentSt.init)).final.state
        ≠ AgentState.FINISHED :=
  ⟨rfl, rfl, by decide⟩

/-- C1 amended: when the step body sets FINISHED, the loop does exit
early (exactly one iteration runs), but once `run` returns the
`state_context` cleanup has reverted the state to the pre-run IDLE —
FINISHED does not survive `run`. -/
theorem run_finished_exits_early_and_reverts_to_idle (step : StepFn)
    (agent : AgentSt) (out : RunOut)
    (hok : ∀ s, ∃ r, (step s).1 = Except.ok r)
    (hfin : ∀ s, (step s).2.state = .FINISHED)
    (hidle : agent.state = .IDLE)
    (hlt : agent.current_step < agent.max_steps)
    (hrun : runTrace step none agent = Except.ok out) :
    out.iters = 1 ∧ out.final.state = .IDLE := by
  obtain ⟨out2, hrun2, hi, hr, hs, hl, hfs, hfm, hmark, hnomark⟩ :=
    runTrace_of_idle step agent hidle
  rw [hrun] at hrun2
  injection hrun2 with he
  subst he
  refine ⟨?_, by rw [hfs, hidle]⟩
  rw [hi]
  unfold loopOf
  exact runLoop_one_iteration_finished step hok hfin agent.max_steps
    { agent with state := AgentState.RUNNING } [] 0 0 (by omega) hlt (by simp)

/-- Witness for C1's amended statement at a concrete input:
the FINISHED-setting step with `max_steps = 3`. -/
theorem run_finished_exits_early_and_reverts_to_idle_witness :
    (getRunOut (runTrace stepFinish none agentMax3)).iters = 1
    ∧ (getRunOut (runTrace stepFinish none agentMax3)).final.state = .IDLE :=
  run_finished_exits_early_and_reverts_to_idle stepFinish agentMax3 _
    (fun _ => ⟨"done", rfl⟩) (fun _ => rfl) rfl (by decide) rfl

/-! ## C10: results on a stuck break -/

/-- C10 amended: when the loop exits through the stuck-retry break, the
summary of the breaking iteration is never appended (one summary fewer
than iterations).  The max-steps marker is omitted only when the break
happened with the step counter still below `max_steps`; when the breaking
iteration was also the `max_steps`-th, the marker is still appended. -/
theorem stuck_break_omits_last_summary (step : StepFn) (agent : AgentSt)
    (out : RunOut)
    (hcs : ∀ s, (step s).2.current_step = s.current_step)
    (hms : ∀ s, (step s).2.max_steps = s.max_steps)
    (hidle : agent.state = .IDLE) (h0 : agent.current_step = 0)
    (hrun : runTrace step none agent = Except.ok out)
    (hbrk : out.reason = .stuckBreak) :
    out.loopResults.length + 1 = out.iters
    ∧ (out.iters < agent.max_steps →
        out.results = out.loopResults
        ∧ out.final.current_step = out.iters)
    ∧ (agent.max_steps ≤ out.iters →
        out.results = out.loopResults ++ [maxMarker agent.max_steps]
        ∧ out.final.current_step = 0) := by
  obtain ⟨out2, hrun2, hi, hr, hs, hl, hfs, hfm, hmark, hnomark⟩ :=
    runTrace_of_idle step agent hidle
  rw [hrun] at hrun2
  injection hrun2 with he
  subst he
  have hproj1 : ({ agent with state := AgentState.RUNNING } : AgentSt).current_step
      = agent.current_step := rfl
  have hproj2 : ({ agent with state := AgentState.RUNNING } : AgentSt).max_steps
      = agent.max_steps := rfl
  unfold loopOf at hi hr hs hl hfm hmark hnomark
  have hLbrk : (runLoop step agent.max_steps
      { agent with state := AgentState.RUNNING } 0 [] 0 0).reason
      = .stuckBreak := by rw [← hr, hbrk]
  obtain ⟨ha, hb, hc2, hd⟩ := runLoop_stuckBreak_facts step hcs hms agent.max_steps
    { agent with state := AgentState.RUNNING } 0 [] 0 0 hLbrk
  simp only [List.length_nil] at ha
  have hmax : (runLoop step agent.max_steps
      { agent with state := AgentState.RUNNING } 0 [] 0 0).s.max_steps
      = agent.max_steps := by omega
  refine ⟨by rw [← hl] at ha; rw [hi]; omega, ?_, ?_⟩
  · intro hltm
    have hcond : ¬ (runLoop step agent.max_steps
        { agent with state := AgentState.RUNNING } 0 [] 0 0).s.max_steps
        ≤ (runLoop step agent.max_steps
        { agent with state := AgentState.RUNNING } 0 [] 0 0).s.current_step := by
      omega
    obtain ⟨hres, hfcs⟩ := hnomark hcond
    exact ⟨by rw [hres, hl], by omega⟩
  · intro hgem
    have hcond : (runLoop step agent.max_steps
        { agent with state := AgentState.RUNNING } 0 [] 0 0).s.max_steps
        ≤ (runLoop step agent.max_steps
        { agent with state := AgentState.RUNNING } 0 [] 0 0).s.current_step := by
      omega
    obtain ⟨hres, hfcs⟩ := hmark hcond
    refine ⟨?_, hfcs⟩
    rw [hres, hl, hmax]

/-- C10 counterexample: with `max_steps = 3` and a permanently stuck
step, the loop exits through the stuck-retry break and the
terminated-at-max-steps marker IS appended to the results. -/
theorem stuck_break_marker_appended_cex :
    (getRunOut (runTrace stepAlwaysStuck none agentMax3)).reason = .stuckBreak
    ∧ (getRunOut (runTrace stepAlwaysStuck none agentMax3)).results
        = ["Step 1: r", "Step 2: r", maxMarker 3]
    ∧ (getRunOut (runTrace stepAlwaysStuck none agentMax3)).results.getLast?
        = some (maxMarker 3) :=
  ⟨rfl, rfl, rfl⟩

/-- Witness for C10's amended statement at a concrete input: the
always-stuck step under the default `max_steps = 10` breaks at iteration
3 with only 2 summaries and no marker. -/
theorem stuck_break_omits_last_summary_witness :
    (getRunOut (runTrace stepAlwaysStuck none AgentSt.init)).loopResults.length + 1
        = (getRunOut (runTrace stepAlwaysStuck none AgentSt.init)).iters
    ∧ ((getRunOut (runTrace stepAlwaysStuck none AgentSt.init)).iters
          < AgentSt.init.max_steps →
        (getRunOut (runTrace stepAlwaysStuck none AgentSt.init)).results
            = (getRunOut (runTrace stepAlwaysStuck none AgentSt.init)).loopResults
        ∧ (getRunOut (runTrace stepAlwaysStuck none AgentSt.init)).final.current_step
            = (getRunOut (runTrace stepAlwaysStuck none AgentSt.init)).iters)
    ∧ (AgentSt.init.max_steps
          ≤ (getRunOut (runTrace stepAlwaysStuck none AgentSt.init)).iters →
        (getRunOut (runTrace stepAlwaysStuck none AgentSt.init)).results
            = (getRunOut (runTrace stepAlwaysStuck none AgentSt.init)).loopResults
              ++ [maxMarker AgentSt.init.max_steps]
        ∧ (getRunOut (runTrace stepAlwaysStuck none AgentSt.init)).final.current_step
            = 0) :=
  stuck_break_omits_last_summary stepAlwaysStuck AgentSt.init _
    (fun _ => rfl) (fun _ => rfl) rfl rfl rfl rfl
